import Mathlib

/-!
# License lifecycle and validation engine: a shallow embedding

This file embeds the License Authority of the repository — the
`LicenseManager` Solidity contract (`smart_contracts/LicenseManager.sol`)
and its mirrored backend Mongoose model
(`backend/src/models/License.js`) — and proves the spec's claims about
issuance, usage metering, expiry, revocation and renewal.

Contract storage is modelled as an explicit state record; every mutating
operation returns its result together with the post state, and a revert
returns the unchanged input state (EVM revert semantics).  Machine
integers (`uint256`) are `Nat` with Solidity 0.8 checked arithmetic:
an addition that would exceed `UMAX` reverts with `LMErr.Overflow`.
-/

/-- Largest `uint256` value, `2 ^ 256 - 1`, written as a literal. -/
def UMAX : Nat := 115792089237316195423570985008687907853269984665640564039457584007913129639935

/-- `enum AccessLevel { ReadOnly, InferenceOnly, FineTuning, FullAccess }`. -/
inductive AccessLevel
  | ReadOnly
  | InferenceOnly
  | FineTuning
  | FullAccess
deriving DecidableEq

/-- The ordinal of an access level, as produced by Solidity's `uint(...)` cast. -/
def AccessLevel.toNat : AccessLevel → Nat
  | .ReadOnly => 0
  | .InferenceOnly => 1
  | .FineTuning => 2
  | .FullAccess => 3

/-- `enum LicenseType { OpenSource, Research, Commercial, Enterprise }`. -/
inductive LicenseType
  | OpenSource
  | Research
  | Commercial
  | Enterprise
deriving DecidableEq

/-- The contract's `struct License` (LicenseManager.sol, lines 23-33).
Addresses are modelled as `Nat`; the zero address is `0`. -/
structure License where
  modelId : Nat
  licensee : Nat
  licenseType : LicenseType
  accessLevel : AccessLevel
  issuedAt : Nat
  expiresAt : Nat
  isActive : Bool
  usageLimit : Nat
  usageCount : Nat
deriving DecidableEq

/-- Typed errors for the contract's `require` reverts.  `NotFound` stands for
the revert raised by `modelRegistry.ownerOf` on a nonexistent model. -/
inductive LMErr
  | Unauthorized
  | NotFound
  | InvalidLicensee
  | InvalidDuration
  | NotActive
  | Expired
  | AlreadyInactive
  | Overflow
deriving DecidableEq

/-- The contract's storage together with its collaborators: `licenses`,
`licenseCounter`, `modelLicenses` and `userLicenses` are the storage
variables of `LicenseManager`; `admins` abstracts `hasRole(LICENSE_ADMIN, ·)`
and `owners` abstracts the external `modelRegistry.ownerOf` oracle
(`none` for a nonexistent model, whose `ownerOf` reverts). -/
structure LMState where
  licenses : Nat → Option License
  licenseCounter : Nat
  modelLicenses : Nat → List Nat
  userLicenses : Nat → List Nat
  admins : Nat → Bool
  owners : Nat → Option Nat

/-- Store license `l` under id `i`, leaving every other record unchanged. -/
def LMState.setLicense (s : LMState) (i : Nat) (l : License) : LMState :=
  { s with licenses := fun j => if j = i then some l else s.licenses j }

/-- `issueLicense` (LicenseManager.sol, lines 91-123).  The
`onlyModelOwner` modifier calls `modelRegistry.ownerOf(modelId)` first, so a
nonexistent model reverts before the admin check is reached. -/
def issueLicense (s : LMState) (sender modelId licensee : Nat)
    (licenseType : LicenseType) (accessLevel : AccessLevel)
    (duration usageLimit now : Nat) : Except LMErr Nat × LMState :=
  match s.owners modelId with
  | none => (.error .NotFound, s)
  | some owner =>
    if owner = sender ∨ s.admins sender = true then
      if licensee = 0 then (.error .InvalidLicensee, s)
      else if duration = 0 then (.error .InvalidDuration, s)
      else if UMAX < s.licenseCounter + 1 then (.error .Overflow, s)
      else if UMAX < now + duration then (.error .Overflow, s)
      else
        let licenseId := s.licenseCounter + 1
        let l : License :=
          { modelId := modelId
            licensee := licensee
            licenseType := licenseType
            accessLevel := accessLevel
            issuedAt := now
            expiresAt := now + duration
            isActive := true
            usageLimit := usageLimit
            usageCount := 0 }
        (.ok licenseId,
         { licenses := fun i => if i = licenseId then some l else s.licenses i
           licenseCounter := licenseId
           modelLicenses := fun m =>
             if m = modelId then s.modelLicenses m ++ [licenseId] else s.modelLicenses m
           userLicenses := fun u =>
             if u = licensee then s.userLicenses u ++ [licenseId] else s.userLicenses u
           admins := s.admins
           owners := s.owners })
    else (.error .Unauthorized, s)

/-- `revokeLicense` (LicenseManager.sol, lines 129-143).  The
`require(license.isActive)` check precedes the authorization check; a
missing license is the zero struct, whose `isActive` is `false`. -/
def revokeLicense (s : LMState) (sender licenseId : Nat) :
    Except LMErr Unit × LMState :=
  match s.licenses licenseId with
  | none => (.error .AlreadyInactive, s)
  | some l =>
    if l.isActive = false then (.error .AlreadyInactive, s)
    else
      match s.owners l.modelId with
      | none => (.error .NotFound, s)
      | some owner =>
        if owner = sender ∨ s.admins sender = true then
          (.ok (), s.setLicense licenseId { l with isActive := false })
        else (.error .Unauthorized, s)

/-- `recordUsage` (LicenseManager.sol, lines 150-167).  The admin check comes
first; a missing license is the zero struct, which fails the
`require(license.isActive)` check. -/
def recordUsage (s : LMState) (sender licenseId usageAmount now : Nat) :
    Except LMErr Unit × LMState :=
  if s.admins sender = false then (.error .Unauthorized, s)
  else
    match s.licenses licenseId with
    | none => (.error .NotActive, s)
    | some l =>
      if l.isActive = false then (.error .NotActive, s)
      else if l.expiresAt ≤ now then (.error .Expired, s)
      else if UMAX < l.usageCount + usageAmount then (.error .Overflow, s)
      else
        let count := l.usageCount + usageAmount
        let l' : License :=
          { l with
            usageCount := count
            isActive := if 0 < l.usageLimit ∧ l.usageLimit ≤ count then false else l.isActive }
        (.ok (), s.setLicense licenseId l')

/-- `validateLicense` (LicenseManager.sol, lines 176-190): a `view` function,
so it takes the state and returns only a `Bool` — it can mutate nothing.  A
missing license is the zero struct, whose `isActive` is `false`, so the
lookup miss folds into the same `false` answer rather than an error. -/
def validateLicense (s : LMState) (licenseId user : Nat)
    (requiredAccess : AccessLevel) (now : Nat) : Bool :=
  match s.licenses licenseId with
  | none => false
  | some l =>
    l.isActive && l.licensee == user && decide (now < l.expiresAt)
      && (l.usageLimit == 0 || decide (l.usageCount < l.usageLimit))
      && decide (requiredAccess.toNat ≤ l.accessLevel.toNat)

/-- `renewLicense` (LicenseManager.sol, lines 197-224).  The authorization
check evaluates `modelRegistry.ownerOf(license.modelId)` first, which
reverts for a nonexistent model; for a missing license the zero struct's
`modelId` is `0` and no model `0` exists in the registry, so the call
reverts (`NotFound`). -/
def renewLicense (s : LMState) (sender licenseId additionalDuration now : Nat) :
    Except LMErr Unit × LMState :=
  match s.licenses licenseId with
  | none => (.error .NotFound, s)
  | some l =>
    match s.owners l.modelId with
    | none => (.error .NotFound, s)
    | some owner =>
      if owner = sender ∨ l.licensee = sender ∨ s.admins sender = true then
        if additionalDuration = 0 then (.error .InvalidDuration, s)
        else
          let newExpiry :=
            if l.expiresAt ≤ now then now + additionalDuration
            else l.expiresAt + additionalDuration
          if UMAX < newExpiry then (.error .Overflow, s)
          else
            let l' : License := { l with expiresAt := newExpiry }
            let l'' : License :=
              if l'.isActive = false ∧ l'.usageCount < l'.usageLimit then
                { l' with isActive := true }
              else l'
            (.ok (), s.setLicense licenseId l'')
      else (.error .Unauthorized, s)

/-- An entry of the backend model's `usageHistory` array (License.js). -/
structure UsageEvent where
  timestamp : Nat
  operation : String
deriving DecidableEq

/-- The backend Mongoose `License` document (License.js): the mirrored record
with the fields the smart contract lacks (`issuer`, `revocationReason`,
`usageHistory`). -/
structure JsLicense where
  model : Nat
  licensee : Nat
  issuer : Nat
  licenseType : LicenseType
  accessLevel : AccessLevel
  issuedAt : Nat
  expiresAt : Nat
  isActive : Bool
  usageLimit : Nat
  usageCount : Nat
  revocationReason : Option String
  usageHistory : List UsageEvent
deriving DecidableEq

/-- `LicenseSchema.methods.revoke` (License.js, lines 173-177): sets
`isActive = false` and `revocationReason = reason` unconditionally — there
is no already-inactive guard, so it never fails. -/
def JsLicense.revoke (l : JsLicense) (reason : String) : JsLicense :=
  { l with isActive := false, revocationReason := some reason }

/-- `LicenseSchema.methods.isValid` (License.js, lines 111-130).  Note the
strict `now > expiresAt` comparison: at `now = expiresAt` this mirror still
reports the license as valid. -/
def JsLicense.isValid (l : JsLicense) (now : Nat) : Bool :=
  if l.isActive = false then false
  else if l.expiresAt < now then false
  else if 0 < l.usageLimit ∧ l.usageLimit ≤ l.usageCount then false
  else true

/-- `LicenseSchema.methods.recordUsage` (License.js, lines 133-150): appends
an entry to `usageHistory`, increments `usageCount` by one, and deactivates
when a positive usage limit is reached. -/
def JsLicense.recordUsage (l : JsLicense) (operation : String) (now : Nat) :
    JsLicense :=
  let l' := { l with
    usageHistory := l.usageHistory ++ [{ timestamp := now, operation := operation }]
    usageCount := l.usageCount + 1 }
  if 0 < l'.usageLimit ∧ l'.usageLimit ≤ l'.usageCount then
    { l' with isActive := false }
  else l'

/-- The backend usage route `PUT /api/licenses/:id/usage`
(licenseRoutes.js, lines 427-481), after its auth check: it gates only on
`isValid()` — rejecting with the single generic message
`License is not valid` — and otherwise records the usage. -/
def jsRecordUsageRoute (l : JsLicense) (operation : String) (now : Nat) :
    Except String JsLicense :=
  if l.isValid now = false then .error "License is not valid"
  else .ok (l.recordUsage operation now)

/-- The mutating operations of the License Authority, for reasoning about
arbitrary operation sequences.  `validateLicense` and the query functions
are `view`s and change no state. -/
inductive LMOp
  | issue (sender modelId licensee : Nat) (licenseType : LicenseType)
      (accessLevel : AccessLevel) (duration usageLimit now : Nat)
  | revoke (sender licenseId : Nat)
  | record (sender licenseId usageAmount now : Nat)
  | renew (sender licenseId additionalDuration now : Nat)

/-- The post state of one License Authority operation. -/
def LMState.step (s : LMState) : LMOp → LMState
  | .issue sender modelId licensee lt al duration usageLimit now =>
      (issueLicense s sender modelId licensee lt al duration usageLimit now).2
  | .revoke sender licenseId => (revokeLicense s sender licenseId).2
  | .record sender licenseId usageAmount now =>
      (recordUsage s sender licenseId usageAmount now).2
  | .renew sender licenseId additionalDuration now =>
      (renewLicense s sender licenseId additionalDuration now).2

/-- Run a sequence of License Authority operations. -/
def LMState.run (s : LMState) : List LMOp → LMState
  | [] => s
  | op :: ops => (s.step op).run ops

/-- Ids strictly beyond `licenseCounter` are unassigned — the contract's
allocation invariant, which holds of the empty initial state and is
preserved by every operation. -/
def FreshIds (s : LMState) : Prop :=
  ∀ i, s.licenseCounter < i → s.licenses i = none

/-- Between two states, every license stored in the first is still stored in
the second with a usage count at least as large. -/
def UsageMono (s s' : LMState) : Prop :=
  ∀ i l, s.licenses i = some l →
    ∃ l', s'.licenses i = some l' ∧ l.usageCount ≤ l'.usageCount

/-- Iterate `recordUsage` with a fixed sender, license id, amount `1` and
time, failing (`none`) as soon as one call fails. -/
def iterRecord (sender licenseId now : Nat) : Nat → LMState → Option LMState
  | 0, s => some s
  | n + 1, s =>
    match recordUsage s sender licenseId 1 now with
    | (.ok _, s') => iterRecord sender licenseId now n s'
    | (.error _, _) => none

/-- The stored license under id `i`, as a function of the state. -/
def LMState.licenseAt (i : Nat) (s : LMState) : Option License :=
  s.licenses i

/-- The result component of one `recordUsage` call, as a function of the
state. -/
def recordResult (sender licenseId usageAmount now : Nat) (s : LMState) :
    Except LMErr Unit :=
  (recordUsage s sender licenseId usageAmount now).1

/-! ## Concrete fixtures used by witnesses and counterexamples -/

/-- A fresh, active license: model 1, licensee 2, expiry 1000, usage limit 5. -/
def wLicense : License :=
  { modelId := 1
    licensee := 2
    licenseType := .Research
    accessLevel := .InferenceOnly
    issuedAt := 0
    expiresAt := 1000
    isActive := true
    usageLimit := 5
    usageCount := 0 }

/-- A store holding `wLicense` under id 1; address 9 is the license admin and
address 3 owns model 1. -/
def wState : LMState :=
  { licenses := fun i => if i = 1 then some wLicense else none
    licenseCounter := 1
    modelLicenses := fun m => if m = 1 then [1] else []
    userLicenses := fun u => if u = 2 then [1] else []
    admins := fun a => a == 9
    owners := fun m => if m = 1 then some 3 else none }

/-- An inactive license with `usageLimit = 0` (unlimited usage), as left by a
revocation: no usage-cap breach is possible for it. -/
def revokedLicense : License :=
  { modelId := 1
    licensee := 2
    licenseType := .Commercial
    accessLevel := .ReadOnly
    issuedAt := 0
    expiresAt := 100
    isActive := false
    usageLimit := 0
    usageCount := 7 }

/-- A store holding the revoked unlimited-usage license under id 1. -/
def revokedState : LMState :=
  { licenses := fun i => if i = 1 then some revokedLicense else none
    licenseCounter := 1
    modelLicenses := fun m => if m = 1 then [1] else []
    userLicenses := fun u => if u = 2 then [1] else []
    admins := fun a => a == 9
    owners := fun m => if m = 1 then some 3 else none }

/-- A backend license document that has already been revoked once. -/
def wJsLicense : JsLicense :=
  { model := 1
    licensee := 2
    issuer := 3
    licenseType := .Commercial
    accessLevel := .FineTuning
    issuedAt := 0
    expiresAt := 1000
    isActive := false
    usageLimit := 10
    usageCount := 4
    revocationReason := some "first reason"
    usageHistory := [{ timestamp := 5, operation := "inference" }] }

/-- An active backend license document under its usage cap
(count 4 of 10), expiring at time 1000. -/
def activeJsLicense : JsLicense :=
  { model := 1
    licensee := 2
    issuer := 3
    licenseType := .Research
    accessLevel := .InferenceOnly
    issuedAt := 0
    expiresAt := 1000
    isActive := true
    usageLimit := 10
    usageCount := 4
    revocationReason := none
    usageHistory := [] }

/-! ## Claims -/

/-- Counterexample to C1 as stated: the backend mirror of the validation
decision, `LicenseSchema.methods.isValid` (License.js, lines 111-130, a
cited source of the claim), answers `true` for the active under-quota
`activeJsLicense` at `now = 1000 = expiresAt`, although the claim's
"current time strictly before expiresAt" conjunct fails there — its strict
`now > expiresAt` test breaks the claimed iff at the boundary. -/
theorem jsIsValid_strict_bound_cx :
    activeJsLicense.isValid 1000 = true ∧
      ¬ (1000 : Nat) < activeJsLicense.expiresAt :=
  ⟨rfl, by decide⟩

/-- **C1, amended.**  The contract's `validateLicense` is a pure read (its
type returns only `Bool`, no post state) and answers `true` exactly when
the license exists, is active, is held by the requester, with the current
time strictly before `expiresAt`, usage quota left (`usageLimit = 0`
meaning unlimited), and an access-level ordinal at least the required one;
a missing license id yields `false` (the `∃` is unsatisfiable), not an
error.  The backend mirror `isValid` instead answers `true` exactly when
the license is active with `now ≤ expiresAt` (its expiry test is the
strict `now > expiresAt`, so the boundary instant still validates) and
quota left; it checks no requester — the route does that separately. -/
theorem validateLicense_iff_amended (s : LMState) (licenseId user : Nat)
    (requiredAccess : AccessLevel) (now : Nat) :
    (validateLicense s licenseId user requiredAccess now = true ↔
      ∃ l, s.licenses licenseId = some l ∧
        l.isActive = true ∧
        l.licensee = user ∧
        now < l.expiresAt ∧
        (l.usageLimit = 0 ∨ l.usageCount < l.usageLimit) ∧
        requiredAccess.toNat ≤ l.accessLevel.toNat) ∧
    (∀ (jl : JsLicense) (t : Nat),
      jl.isValid t = true ↔
        jl.isActive = true ∧ t ≤ jl.expiresAt ∧
          (jl.usageLimit = 0 ∨ jl.usageCount < jl.usageLimit)) := by
  constructor
  · cases hl : s.licenses licenseId with
    | none => simp [validateLicense, hl]
    | some l =>
      simp only [validateLicense, hl, Bool.and_eq_true, beq_iff_eq,
        Bool.or_eq_true, decide_eq_true_eq, Option.some.injEq]
      constructor
      · rintro ⟨⟨⟨⟨hact, hlic⟩, hexp⟩, husage⟩, hacc⟩
        exact ⟨l, rfl, hact, hlic, hexp, husage.imp id id, hacc⟩
      · rintro ⟨l', hl', hact, hlic, hexp, husage, hacc⟩
        cases hl'
        exact ⟨⟨⟨⟨hact, hlic⟩, hexp⟩, husage.imp id id⟩, hacc⟩
  · intro jl t
    cases hact : jl.isActive with
    | false => simp [JsLicense.isValid, hact]
    | true =>
      by_cases h2 : jl.expiresAt < t
      · simp [JsLicense.isValid, hact, h2, Nat.not_le.mpr h2]
      · by_cases h3 : 0 < jl.usageLimit ∧ jl.usageLimit ≤ jl.usageCount
        · simp only [JsLicense.isValid, hact, h2, h3]
          simp only [if_true, if_false, ite_false, ite_true]
          constructor
          · intro h
            exact absurd h (by simp)
          · rintro ⟨-, -, hq⟩
            omega
        · simp only [JsLicense.isValid, hact, h2, h3]
          simp
          constructor
          · exact Nat.not_lt.mp h2
          · omega

/-- Counterexample to C5 as stated: the backend's
`LicenseSchema.methods.isValid` (License.js, lines 111-130, a cited source
of the claim) still reports the active under-quota `activeJsLicense` as
valid at exactly `now = expiresAt = 1000`, a time inside the claim's
"current time greater than or equal to expiresAt" scope — its comparison
is the strict `now > expiresAt`. -/
theorem jsIsValid_boundary_cx :
    activeJsLicense.expiresAt ≤ 1000 ∧
      activeJsLicense.isActive = true ∧
      activeJsLicense.usageCount < activeJsLicense.usageLimit ∧
      activeJsLicense.isValid 1000 = true :=
  ⟨by decide, rfl, by decide, rfl⟩

/-- **C5, amended.**  The contract's `validateLicense` answers `false` for
every license whose expiry time has been reached (`expiresAt ≤ now`, the
boundary `now = expiresAt` included), whatever the other fields hold; the
backend's `isValid` guarantees `false` only strictly past the expiry
(`expiresAt < now`) — at `now = expiresAt` exactly it can still answer
`true`. -/
theorem validateLicense_expired_amended (s : LMState) (licenseId user : Nat)
    (requiredAccess : AccessLevel) (now : Nat) (l : License)
    (hl : s.licenses licenseId = some l) (hexp : l.expiresAt ≤ now) :
    validateLicense s licenseId user requiredAccess now = false ∧
    (∀ (jl : JsLicense) (t : Nat), jl.expiresAt < t →
      jl.isValid t = false) := by
  refine ⟨by simp [validateLicense, hl, Nat.not_lt.mpr hexp], ?_⟩
  intro jl t hlt
  simp [JsLicense.isValid, hlt]

/-- Witness for C5 (amended): `wLicense` expires at time 1000 and already
fails contract validation at exactly `now = 1000`; the backend part is
instantiated at `activeJsLicense` one instant past its expiry. -/
theorem validateLicense_expired_amended_witness :
    wState.licenses 1 = some wLicense ∧ wLicense.expiresAt ≤ 1000 ∧
      validateLicense wState 1 2 .InferenceOnly 1000 = false ∧
      activeJsLicense.expiresAt < 1001 ∧
      activeJsLicense.isValid 1001 = false :=
  ⟨rfl, by decide,
    (validateLicense_expired_amended wState 1 2 .InferenceOnly 1000 wLicense rfl
      (by decide)).1,
    by decide,
    (validateLicense_expired_amended wState 1 2 .InferenceOnly 1000 wLicense rfl
      (by decide)).2 activeJsLicense 1001 (by decide)⟩

/-- **C7.** `issueLicense` called by a sender who neither owns the model nor
holds the license-admin role fails with `Unauthorized`, and the returned
state is the input state itself: no license record is created and neither
the per-model nor the per-licensee index changes. -/
theorem issueLicense_unauthorized (s : LMState) (sender modelId licensee : Nat)
    (licenseType : LicenseType) (accessLevel : AccessLevel)
    (duration usageLimit now : Nat) (owner : Nat)
    (hown : s.owners modelId = some owner) (hne : owner ≠ sender)
    (hadm : s.admins sender = false) :
    issueLicense s sender modelId licensee licenseType accessLevel
        duration usageLimit now = (.error .Unauthorized, s) := by
  simp [issueLicense, hown, hne, hadm]

/-- Witness for C7: in `wState` model 1 is owned by address 3 and address 4
is no admin, so address 4 cannot issue a license for model 1 and the state
is untouched. -/
theorem issueLicense_unauthorized_witness :
    wState.owners 1 = some 3 ∧ (3 : Nat) ≠ 4 ∧ wState.admins 4 = false ∧
      issueLicense wState 4 1 2 .Commercial .FullAccess 100 0 50 =
        (.error .Unauthorized, wState) :=
  ⟨rfl, by decide, rfl,
    issueLicense_unauthorized wState 4 1 2 .Commercial .FullAccess 100 0 50 3
      rfl (by decide) rfl⟩

/-- Counterexample to C8 as stated: the backend usage route
(`PUT /api/licenses/:id/usage`, licenseRoutes.js lines 440-463, a cited
source of the claim) gates only on `isValid()`, whose expiry test is the
strict `now > expiresAt`; so at `now = 1000 = expiresAt` — inside the
claim's "now >= expiresAt at call time" scope, with `usageCount <
usageLimit` — it records the usage successfully instead of failing with
`Expired`. -/
theorem jsUsageRoute_boundary_cx :
    activeJsLicense.expiresAt ≤ 1000 ∧
      activeJsLicense.usageCount < activeJsLicense.usageLimit ∧
      jsRecordUsageRoute activeJsLicense "inference" 1000 =
        .ok (activeJsLicense.recordUsage "inference" 1000) ∧
      (activeJsLicense.recordUsage "inference" 1000).usageCount =
        activeJsLicense.usageCount + 1 :=
  ⟨by decide, by decide, rfl, rfl⟩

/-- **C8, amended.**  The contract's `recordUsage` re-checks the license at
call time: called by an admin on an active license whose expiry has been
reached (`expiresAt ≤ now`) it fails with `Expired` even when usage quota
remains, and called on an inactive license it fails with `NotActive`, the
state returned unchanged in both cases.  The backend usage route gates
only on `isValid()`, whose expiry comparison is strict, so it is
guaranteed to reject only strictly past the expiry (`expiresAt < now`) or
when the license is inactive — and then with the single generic
`License is not valid` answer, not a distinct `Expired`/`NotActive`
error; at `now = expiresAt` exactly it still records usage. -/
theorem recordUsage_expired_amended (s : LMState)
    (sender licenseId usageAmount now : Nat)
    (hadm : s.admins sender = true) :
    (∀ l, s.licenses licenseId = some l → l.isActive = true →
      l.expiresAt ≤ now → l.usageCount < l.usageLimit →
      recordUsage s sender licenseId usageAmount now = (.error .Expired, s)) ∧
    (∀ l, s.licenses licenseId = some l → l.isActive = false →
      recordUsage s sender licenseId usageAmount now = (.error .NotActive, s)) ∧
    (∀ (jl : JsLicense) (op : String) (t : Nat), jl.expiresAt < t →
      jsRecordUsageRoute jl op t = .error "License is not valid") ∧
    (∀ (jl : JsLicense) (op : String) (t : Nat), jl.isActive = false →
      jsRecordUsageRoute jl op t = .error "License is not valid") := by
  refine ⟨?_, ?_, ?_, ?_⟩
  · intro l hl hact hexp _
    simp [recordUsage, hl, hadm, hact, hexp]
  · intro l hl hact
    simp [recordUsage, hl, hadm, hact]
  · intro jl op t hlt
    have hv : jl.isValid t = false := by
      simp [JsLicense.isValid, hlt]
    simp [jsRecordUsageRoute, hv]
  · intro jl op t hia
    have hv : jl.isValid t = false := by
      simp [JsLicense.isValid, hia]
    simp [jsRecordUsageRoute, hv]

/-- **C3.** For every stored license and every positive `additionalDuration`,
an authorized `renewLicense` call succeeds and sets `expiresAt` to
`now + additionalDuration` when the license is already time-expired
(`expiresAt ≤ now` at call time — no banking of expired time) and to
`expiresAt + additionalDuration` otherwise. -/
theorem renewLicense_expiry (s : LMState) (sender licenseId add now : Nat)
    (l : License) (owner : Nat)
    (hl : s.licenses licenseId = some l)
    (hown : s.owners l.modelId = some owner)
    (hauth : owner = sender ∨ l.licensee = sender ∨ s.admins sender = true)
    (hdur : add ≠ 0)
    (hov1 : now + add ≤ UMAX) (hov2 : l.expiresAt + add ≤ UMAX) :
    (renewLicense s sender licenseId add now).1 = .ok () ∧
      Option.map License.expiresAt
          ((renewLicense s sender licenseId add now).2.licenses licenseId) =
        some (if l.expiresAt ≤ now then now + add else l.expiresAt + add) := by
  simp only [renewLicense, hl, hown, if_pos hauth, if_neg hdur]
  by_cases hexp : l.expiresAt ≤ now
  · rw [if_pos hexp, if_neg (Nat.not_lt.mpr hov1)]
    refine ⟨rfl, ?_⟩
    simp only [LMState.setLicense]
    rw [if_pos trivial]
    split <;> rfl
  · rw [if_neg hexp, if_neg (Nat.not_lt.mpr hov2)]
    refine ⟨rfl, ?_⟩
    simp only [LMState.setLicense]
    rw [if_pos trivial]
    split <;> rfl

/-- Witness for C3: owner 3 renews the live `wLicense` (expiry 1000) by 40
at `now = 50`, and the claim's expiry arithmetic applies. -/
theorem renewLicense_expiry_witness :
    wState.licenses 1 = some wLicense ∧ (40 : Nat) ≠ 0 ∧
      ((renewLicense wState 3 1 40 50).1 = .ok () ∧
        Option.map License.expiresAt ((renewLicense wState 3 1 40 50).2.licenses 1) =
          some (if wLicense.expiresAt ≤ 50 then 50 + 40
            else wLicense.expiresAt + 40)) :=
  ⟨rfl, by decide,
    renewLicense_expiry wState 3 1 40 50 wLicense 3 rfl rfl (Or.inl rfl)
      (by decide) (by decide) (by decide)⟩

/-- Counterexample to C4 as stated: `revokedLicense` is inactive with
`usageLimit = 0`, so the claim's reactivation condition
`isActive = false ∧ (usageLimit = 0 ∨ usageCount < usageLimit)` holds, yet
the owner's successful `renewLicense` call leaves it inactive: the source
(LicenseManager.sol line 219, License.js line 165) tests only
`usageCount < usageLimit`, which is unsatisfiable for an unlimited-usage
license. -/
theorem renewLicense_no_reactivation_cx :
    revokedLicense.isActive = false ∧ revokedLicense.usageLimit = 0 ∧
      (renewLicense revokedState 3 1 50 200).1 = Except.ok () ∧
      Option.map License.isActive
        ((renewLicense revokedState 3 1 50 200).2.licenses 1) = some false :=
  ⟨rfl, rfl, rfl, rfl⟩

/-- **C4, amended.** A successful authorized `renewLicense` sets the
license's `isActive` flag to `isActive ∨ usageCount < usageLimit`: it
reactivates an inactive license exactly when `usageCount < usageLimit`.
Hence a license with `usageLimit = 0` (unlimited) is never automatically
reactivated — in particular a revoked unlimited-usage license stays
inactive — while a revoked license that still has `usageCount < usageLimit`
IS reactivated, revocation notwithstanding. -/
theorem renewLicense_reactivation (s : LMState) (sender licenseId add now : Nat)
    (l : License) (owner : Nat)
    (hl : s.licenses licenseId = some l)
    (hown : s.owners l.modelId = some owner)
    (hauth : owner = sender ∨ l.licensee = sender ∨ s.admins sender = true)
    (hdur : add ≠ 0)
    (hov1 : now + add ≤ UMAX) (hov2 : l.expiresAt + add ≤ UMAX) :
    Option.map License.isActive
        ((renewLicense s sender licenseId add now).2.licenses licenseId) =
      some (l.isActive || decide (l.usageCount < l.usageLimit)) := by
  simp only [renewLicense, hl, hown, if_pos hauth, if_neg hdur]
  have hov : ¬ UMAX < (if l.expiresAt ≤ now then now + add else l.expiresAt + add) := by
    split
    · exact Nat.not_lt.mpr hov1
    · exact Nat.not_lt.mpr hov2
  rw [if_neg hov]
  simp only [LMState.setLicense]
  cases hact : l.isActive <;> by_cases hcl : l.usageCount < l.usageLimit <;>
    simp [hact, hcl]

/-- Witness for C4 (amended): owner 3 renews `revokedLicense`
(inactive, `usageCount = 7`, `usageLimit = 0`) and the resulting flag is
`false ∨ (7 < 0)`, i.e. the license stays inactive. -/
theorem renewLicense_reactivation_witness :
    revokedState.licenses 1 = some revokedLicense ∧ (50 : Nat) ≠ 0 ∧
      Option.map License.isActive
          ((renewLicense revokedState 3 1 50 200).2.licenses 1) =
        some (revokedLicense.isActive ||
          decide (revokedLicense.usageCount < revokedLicense.usageLimit)) :=
  ⟨rfl, by decide,
    renewLicense_reactivation revokedState 3 1 50 200 revokedLicense 3 rfl rfl
      (Or.inl rfl) (by decide) (by decide) (by decide)⟩

/-- Counterexample to C6 as stated: the backend's revoke
(`LicenseSchema.methods.revoke`) has no already-inactive guard, so revoking
the already-revoked `wJsLicense` does not fail with `AlreadyInactive` — it
silently succeeds, deactivating again and overwriting the previously
recorded reason. -/
theorem jsRevoke_silent_success_cx :
    wJsLicense.isActive = false ∧
      wJsLicense.revocationReason = some "first reason" ∧
      (wJsLicense.revoke "second reason").isActive = false ∧
      (wJsLicense.revoke "second reason").revocationReason = some "second reason" :=
  ⟨rfl, rfl, rfl, rfl⟩

/-- **C6, amended.** The two implementations split the claimed behavior:
the smart contract's `revokeLicense` sets `isActive := false` on an active
license and fails with `AlreadyInactive` on an inactive one, but takes no
reason and records none (its `License` struct has no such field); the
backend's `revoke` records `revocationReason := reason` and deactivates,
but never rejects an already-inactive license. -/
theorem revokeLicense_amended (s : LMState) (sender licenseId : Nat)
    (l : License) (hl : s.licenses licenseId = some l) :
    (∀ owner, s.owners l.modelId = some owner →
      (owner = sender ∨ s.admins sender = true) → l.isActive = true →
      revokeLicense s sender licenseId =
        (.ok (), s.setLicense licenseId { l with isActive := false })) ∧
    (l.isActive = false →
      revokeLicense s sender licenseId = (.error .AlreadyInactive, s)) ∧
    (∀ (jl : JsLicense) (reason : String),
      (jl.revoke reason).isActive = false ∧
        (jl.revoke reason).revocationReason = some reason) := by
  refine ⟨?_, ?_, fun jl reason => ⟨rfl, rfl⟩⟩
  · intro owner hown hauth hact
    simp [revokeLicense, hl, hact, hown, hauth]
  · intro hact
    simp [revokeLicense, hl, hact]

/-- Witness for C6 (amended): owner 3 revokes the active `wLicense`
successfully; revoking in `revokedState` (already inactive) fails with
`AlreadyInactive`; the backend part is instantiated at `wJsLicense`. -/
theorem revokeLicense_amended_witness :
    wState.licenses 1 = some wLicense ∧
      revokeLicense wState 3 1 =
        (.ok (), wState.setLicense 1 { wLicense with isActive := false }) ∧
      revokeLicense revokedState 3 1 = (.error .AlreadyInactive, revokedState) ∧
      (wJsLicense.revoke "why").isActive = false :=
  ⟨rfl,
    (revokeLicense_amended wState 3 1 wLicense rfl).1 3 rfl (Or.inl rfl) rfl,
    (revokeLicense_amended revokedState 3 1 revokedLicense rfl).2.1 rfl,
    ((revokeLicense_amended wState 3 1 wLicense rfl).2.2 wJsLicense "why").1⟩

/-- **C10.** A successful contract `revokeLicense` stores the target record
with only `isActive` flipped (the record update `{ l with isActive := false }`
fixes every other field), leaves every other license id untouched, and
changes none of the other storage variables; the backend's `revoke` changes
only `isActive` and `revocationReason`, preserving `model`, `licensee`,
`issuer`, `licenseType`, `accessLevel`, `issuedAt`, `expiresAt`,
`usageLimit`, `usageCount` and `usageHistory`. -/
theorem revokeLicense_frame (s : LMState) (sender licenseId : Nat)
    (l : License) (owner : Nat)
    (hl : s.licenses licenseId = some l) (hact : l.isActive = true)
    (hown : s.owners l.modelId = some owner)
    (hauth : owner = sender ∨ s.admins sender = true) :
    (revokeLicense s sender licenseId).1 = .ok () ∧
      (revokeLicense s sender licenseId).2.licenses licenseId =
        some { l with isActive := false } ∧
      (∀ j, j ≠ licenseId →
        (revokeLicense s sender licenseId).2.licenses j = s.licenses j) ∧
      (revokeLicense s sender licenseId).2.licenseCounter = s.licenseCounter ∧
      (revokeLicense s sender licenseId).2.modelLicenses = s.modelLicenses ∧
      (revokeLicense s sender licenseId).2.userLicenses = s.userLicenses ∧
      (revokeLicense s sender licenseId).2.admins = s.admins ∧
      (revokeLicense s sender licenseId).2.owners = s.owners ∧
      (∀ (jl : JsLicense) (reason : String),
        (jl.revoke reason).model = jl.model ∧
        (jl.revoke reason).licensee = jl.licensee ∧
        (jl.revoke reason).issuer = jl.issuer ∧
        (jl.revoke reason).licenseType = jl.licenseType ∧
        (jl.revoke reason).accessLevel = jl.accessLevel ∧
        (jl.revoke reason).issuedAt = jl.issuedAt ∧
        (jl.revoke reason).expiresAt = jl.expiresAt ∧
        (jl.revoke reason).usageLimit = jl.usageLimit ∧
        (jl.revoke reason).usageCount = jl.usageCount ∧
        (jl.revoke reason).usageHistory = jl.usageHistory) := by
  have hrev : revokeLicense s sender licenseId =
      (.ok (), s.setLicense licenseId { l with isActive := false }) := by
    simp [revokeLicense, hl, hact, hown, hauth]
  rw [hrev]
  refine ⟨rfl, by simp [LMState.setLicense], ?_, rfl, rfl, rfl, rfl, rfl,
    fun jl reason => ⟨rfl, rfl, rfl, rfl, rfl, rfl, rfl, rfl, rfl, rfl⟩⟩
  intro j hj
  simp [LMState.setLicense, hj]

/-- Witness for C10: owner 3 revokes `wLicense` in `wState`; the stored
record is `wLicense` with `isActive := false`, id 2 is untouched, and the
backend part is instantiated at `wJsLicense`. -/
theorem revokeLicense_frame_witness :
    wState.licenses 1 = some wLicense ∧ wLicense.isActive = true ∧
      (revokeLicense wState 3 1).2.licenses 1 =
        some { wLicense with isActive := false } ∧
      (revokeLicense wState 3 1).2.licenses 2 = wState.licenses 2 ∧
      (wJsLicense.revoke "why").usageHistory = wJsLicense.usageHistory :=
  ⟨rfl, rfl,
    (revokeLicense_frame wState 3 1 wLicense 3 rfl rfl rfl (Or.inl rfl)).2.1,
    (revokeLicense_frame wState 3 1 wLicense 3 rfl rfl rfl (Or.inl rfl)).2.2.1 2
      (by decide),
    ((revokeLicense_frame wState 3 1 wLicense 3 rfl rfl rfl
      (Or.inl rfl)).2.2.2.2.2.2.2.2 wJsLicense "why").2.2.2.2.2.2.2.2.2⟩

/-- Witness for C8 (amended): admin 9 recording usage on `wLicense` at
`now = 1000` (its expiry instant, quota 0 of 5 used) gets `Expired`;
recording on the inactive `revokedLicense` gets `NotActive`; the backend
route rejects `activeJsLicense` one instant past expiry and the inactive
`wJsLicense` with its generic message. -/
theorem recordUsage_expired_amended_witness :
    wState.admins 9 = true ∧
      recordUsage wState 9 1 1 1000 = (.error .Expired, wState) ∧
      recordUsage revokedState 9 1 1 50 = (.error .NotActive, revokedState) ∧
      jsRecordUsageRoute activeJsLicense "inference" 1001 =
        .error "License is not valid" ∧
      jsRecordUsageRoute wJsLicense "inference" 10 =
        .error "License is not valid" :=
  ⟨rfl,
    (recordUsage_expired_amended wState 9 1 1 1000 rfl).1 wLicense rfl rfl
      (by decide) (by decide),
    (recordUsage_expired_amended revokedState 9 1 1 50 rfl).2.1 revokedLicense
      rfl rfl,
    (recordUsage_expired_amended wState 9 1 1 1000 rfl).2.2.1 activeJsLicense
      "inference" 1001 (by decide),
    (recordUsage_expired_amended wState 9 1 1 1000 rfl).2.2.2 wJsLicense
      "inference" 10 rfl⟩


/-- Sanity check: the `UMAX` literal is the largest `uint256` value. -/
theorem UMAX_eq : UMAX = 2 ^ 256 - 1 := by norm_num [UMAX]

theorem usageMono_refl (s : LMState) : UsageMono s s :=
  fun _ l h => ⟨l, h, Nat.le_refl _⟩

/-- A state with the allocation invariant stores licenses only at ids at
most `licenseCounter`. -/
theorem id_le_counter_of_some {s : LMState} {i : Nat} {l : License}
    (hf : FreshIds s) (hl : s.licenses i = some l) : i ≤ s.licenseCounter := by
  by_contra h
  rw [hf i (Nat.lt_of_not_le h)] at hl
  cases hl

theorem setLicense_freshIds {s : LMState} {i : Nat} {l l' : License}
    (hf : FreshIds s) (hl : s.licenses i = some l) :
    FreshIds (s.setLicense i l') := by
  intro j hj
  have hji : j ≠ i := by
    have := id_le_counter_of_some hf hl
    have hj' : s.licenseCounter < j := hj
    omega
  show (if j = i then some l' else s.licenses j) = none
  rw [if_neg hji]
  exact hf j hj

theorem setLicense_usageMono {s : LMState} {i : Nat} {l l' : License}
    (hl : s.licenses i = some l) (hcnt : l.usageCount ≤ l'.usageCount) :
    UsageMono s (s.setLicense i l') := by
  intro j lj hlj
  by_cases hji : j = i
  · subst hji
    have heq : l = lj := by
      have h := hl.symm.trans hlj
      injection h
    refine ⟨l', ?_, heq ▸ hcnt⟩
    show (if j = j then some l' else s.licenses j) = some l'
    rw [if_pos rfl]
  · refine ⟨lj, ?_, Nat.le_refl _⟩
    show (if j = i then some l' else s.licenses j) = some lj
    rw [if_neg hji]
    exact hlj

/-- One License Authority operation preserves the allocation invariant and
never lowers any stored usage count. -/
theorem step_freshIds_usageMono (s : LMState) (op : LMOp) (hf : FreshIds s) :
    FreshIds (s.step op) ∧ UsageMono s (s.step op) := by
  cases op with
  | issue sender modelId licensee lt al duration usageLimit now =>
    cases hown : s.owners modelId with
    | none =>
      have he : s.step (LMOp.issue sender modelId licensee lt al duration usageLimit now) = s := by
        simp [LMState.step, issueLicense, hown]
      rw [he]; exact ⟨hf, usageMono_refl s⟩
    | some owner =>
      by_cases hauth : owner = sender ∨ s.admins sender = true
      · by_cases h1 : licensee = 0
        · have he : s.step (LMOp.issue sender modelId licensee lt al duration usageLimit now) = s := by
            simp [LMState.step, issueLicense, hown, hauth, h1]
          rw [he]; exact ⟨hf, usageMono_refl s⟩
        · by_cases h2 : duration = 0
          · have he : s.step (LMOp.issue sender modelId licensee lt al duration usageLimit now) = s := by
              simp [LMState.step, issueLicense, hown, hauth, h1, h2]
            rw [he]; exact ⟨hf, usageMono_refl s⟩
          · by_cases h3 : UMAX < s.licenseCounter + 1
            · have he : s.step (LMOp.issue sender modelId licensee lt al duration usageLimit now) = s := by
                simp [LMState.step, issueLicense, hown, hauth, h1, h2, h3]
              rw [he]; exact ⟨hf, usageMono_refl s⟩
            · by_cases h4 : UMAX < now + duration
              · have he : s.step (LMOp.issue sender modelId licensee lt al duration usageLimit now) = s := by
                  simp [LMState.step, issueLicense, hown, hauth, h1, h2, h3, h4]
                rw [he]; exact ⟨hf, usageMono_refl s⟩
              · have hcnt : (s.step (LMOp.issue sender modelId licensee lt al duration usageLimit now)).licenseCounter
                    = s.licenseCounter + 1 := by
                  simp [LMState.step, issueLicense, hown, hauth, h1, h2, h3, h4]
                have hold : ∀ j, j ≠ s.licenseCounter + 1 →
                    (s.step (LMOp.issue sender modelId licensee lt al duration usageLimit now)).licenses j
                      = s.licenses j := by
                  intro j hj
                  simp [LMState.step, issueLicense, hown, hauth, h1, h2, h3, h4, hj]
                constructor
                · intro j hj
                  rw [hcnt] at hj
                  rw [hold j (by omega)]
                  exact hf j (by omega)
                · intro j lj hlj
                  have hle := id_le_counter_of_some hf hlj
                  rw [← hold j (by omega)] at hlj
                  exact ⟨lj, hlj, Nat.le_refl _⟩
      · have he : s.step (LMOp.issue sender modelId licensee lt al duration usageLimit now) = s := by
          simp [LMState.step, issueLicense, hown, hauth]
        rw [he]; exact ⟨hf, usageMono_refl s⟩
  | revoke sender licenseId =>
    cases hl : s.licenses licenseId with
    | none =>
      have he : s.step (LMOp.revoke sender licenseId) = s := by
        simp [LMState.step, revokeLicense, hl]
      rw [he]; exact ⟨hf, usageMono_refl s⟩
    | some l =>
      by_cases h1 : l.isActive = false
      · have he : s.step (LMOp.revoke sender licenseId) = s := by
          simp [LMState.step, revokeLicense, hl, h1]
        rw [he]; exact ⟨hf, usageMono_refl s⟩
      · cases hown : s.owners l.modelId with
        | none =>
          have he : s.step (LMOp.revoke sender licenseId) = s := by
            simp [LMState.step, revokeLicense, hl, h1, hown]
          rw [he]; exact ⟨hf, usageMono_refl s⟩
        | some owner =>
          by_cases hauth : owner = sender ∨ s.admins sender = true
          · have he : s.step (LMOp.revoke sender licenseId)
                = s.setLicense licenseId { l with isActive := false } := by
              simp [LMState.step, revokeLicense, hl, h1, hown, hauth]
            rw [he]
            exact ⟨setLicense_freshIds hf hl, setLicense_usageMono hl (Nat.le_refl _)⟩
          · have he : s.step (LMOp.revoke sender licenseId) = s := by
              simp [LMState.step, revokeLicense, hl, h1, hown, hauth]
            rw [he]; exact ⟨hf, usageMono_refl s⟩
  | record sender licenseId usageAmount now =>
    by_cases hadm : s.admins sender = false
    · have he : s.step (LMOp.record sender licenseId usageAmount now) = s := by
        simp [LMState.step, recordUsage, hadm]
      rw [he]; exact ⟨hf, usageMono_refl s⟩
    · cases hl : s.licenses licenseId with
      | none =>
        have he : s.step (LMOp.record sender licenseId usageAmount now) = s := by
          simp [LMState.step, recordUsage, hadm, hl]
        rw [he]; exact ⟨hf, usageMono_refl s⟩
      | some l =>
        by_cases h1 : l.isActive = false
        · have he : s.step (LMOp.record sender licenseId usageAmount now) = s := by
            simp [LMState.step, recordUsage, hadm, hl, h1]
          rw [he]; exact ⟨hf, usageMono_refl s⟩
        · by_cases h2 : l.expiresAt ≤ now
          · have he : s.step (LMOp.record sender licenseId usageAmount now) = s := by
              simp [LMState.step, recordUsage, hadm, hl, h1, h2]
            rw [he]; exact ⟨hf, usageMono_refl s⟩
          · by_cases h3 : UMAX < l.usageCount + usageAmount
            · have he : s.step (LMOp.record sender licenseId usageAmount now) = s := by
                simp [LMState.step, recordUsage, hadm, hl, h1, h2, h3]
              rw [he]; exact ⟨hf, usageMono_refl s⟩
            · have he : s.step (LMOp.record sender licenseId usageAmount now)
                  = s.setLicense licenseId
                    { l with
                      usageCount := l.usageCount + usageAmount
                      isActive := if 0 < l.usageLimit ∧ l.usageLimit ≤ l.usageCount + usageAmount
                        then false else l.isActive } := by
                simp [LMState.step, recordUsage, hadm, hl, h1, h2, h3]
              rw [he]
              exact ⟨setLicense_freshIds hf hl,
                setLicense_usageMono hl (Nat.le_add_right _ _)⟩
  | renew sender licenseId additionalDuration now =>
    cases hl : s.licenses licenseId with
    | none =>
      have he : s.step (LMOp.renew sender licenseId additionalDuration now) = s := by
        simp [LMState.step, renewLicense, hl]
      rw [he]; exact ⟨hf, usageMono_refl s⟩
    | some l =>
      cases hown : s.owners l.modelId with
      | none =>
        have he : s.step (LMOp.renew sender licenseId additionalDuration now) = s := by
          simp [LMState.step, renewLicense, hl, hown]
        rw [he]; exact ⟨hf, usageMono_refl s⟩
      | some owner =>
        by_cases hauth : owner = sender ∨ l.licensee = sender ∨ s.admins sender = true
        · by_cases h1 : additionalDuration = 0
          · have he : s.step (LMOp.renew sender licenseId additionalDuration now) = s := by
              simp [LMState.step, renewLicense, hl, hown, hauth, h1]
            rw [he]; exact ⟨hf, usageMono_refl s⟩
          · by_cases h2 : UMAX <
                (if l.expiresAt ≤ now then now + additionalDuration
                 else l.expiresAt + additionalDuration)
            · have he : s.step (LMOp.renew sender licenseId additionalDuration now) = s := by
                simp only [LMState.step, renewLicense, hl, hown, if_pos hauth,
                  if_neg h1, if_pos h2]
              rw [he]; exact ⟨hf, usageMono_refl s⟩
            · have he : s.step (LMOp.renew sender licenseId additionalDuration now)
                  = s.setLicense licenseId
                    (if l.isActive = false ∧ l.usageCount < l.usageLimit then
                      { l with
                        expiresAt := if l.expiresAt ≤ now then now + additionalDuration
                          else l.expiresAt + additionalDuration
                        isActive := true }
                    else
                      { l with
                        expiresAt := if l.expiresAt ≤ now then now + additionalDuration
                          else l.expiresAt + additionalDuration }) := by
                simp only [LMState.step, renewLicense, hl, hown, if_pos hauth,
                  if_neg h1, if_neg h2]
              rw [he]
              refine ⟨setLicense_freshIds hf hl, setLicense_usageMono hl ?_⟩
              split <;> exact Nat.le_refl _
        · have he : s.step (LMOp.renew sender licenseId additionalDuration now) = s := by
            simp [LMState.step, renewLicense, hl, hown, hauth]
          rw [he]; exact ⟨hf, usageMono_refl s⟩

/-- **C9.** From any state satisfying the allocation invariant (ids beyond
`licenseCounter` unassigned, as in every reachable state), no License
Authority operation — `issueLicense`, `revokeLicense`, `recordUsage`,
`renewLicense`; the `view` queries change no state — nor any sequence of
them ever decreases a stored license's `usageCount`: after each operation
the count is at least its value before. -/
theorem usageCount_monotone (s : LMState) (hf : FreshIds s) :
    (∀ op i l l', s.licenses i = some l →
      (s.step op).licenses i = some l' → l.usageCount ≤ l'.usageCount) ∧
    (∀ ops i l l', s.licenses i = some l →
      (s.run ops).licenses i = some l' → l.usageCount ≤ l'.usageCount) := by
  have hrun : ∀ (ops : List LMOp) (t : LMState), FreshIds t → ∀ i l l',
      t.licenses i = some l → (t.run ops).licenses i = some l' →
      l.usageCount ≤ l'.usageCount := by
    intro ops
    induction ops with
    | nil =>
      intro t _ i l l' hl hl'
      have h : some l = some l' := by
        rw [← hl, ← hl']
        rfl
      injection h with h
      exact Nat.le_of_eq (congrArg License.usageCount h)
    | cons op ops ih =>
      intro t hft i l l' hl hl'
      obtain ⟨hf', hm⟩ := step_freshIds_usageMono t op hft
      obtain ⟨lm, hlm, hle⟩ := hm i l hl
      exact Nat.le_trans hle (ih (t.step op) hf' i lm l' hlm hl')
  refine ⟨?_, fun ops i l l' hl hl' => hrun ops s hf i l l' hl hl'⟩
  intro op i l l' hl hl'
  exact hrun [op] s hf i l l' hl hl'

/-- Witness for C9: `wState` satisfies the allocation invariant, and
running one `recordUsage` of 2 usages on license 1 moves its count from
0 to 2 — not a decrease. -/
theorem usageCount_monotone_witness :
    FreshIds wState ∧
      wLicense.usageCount ≤ ({ wLicense with usageCount := 2 } : License).usageCount := by
  have hfw : FreshIds wState := by
    intro i hi
    have h1 : (1 : Nat) < i := hi
    show (if i = 1 then some wLicense else none) = none
    rw [if_neg (by omega)]
  refine ⟨hfw, ?_⟩
  exact (usageCount_monotone wState hfw).2 [LMOp.record 9 1 2 10] 1 wLicense
    { wLicense with usageCount := 2 } rfl (by decide)

/-- A `recordUsage` call on an active, unexpired license by an admin
succeeds and stores the incremented count, deactivating exactly when a
positive usage limit is reached. -/
theorem recordUsage_ok (s : LMState) (sender licenseId usageAmount now : Nat)
    (l : License)
    (hadm : s.admins sender = true) (hl : s.licenses licenseId = some l)
    (hact : l.isActive = true) (hexp : now < l.expiresAt)
    (hov : l.usageCount + usageAmount ≤ UMAX) :
    recordUsage s sender licenseId usageAmount now =
      (.ok (), s.setLicense licenseId
        { l with
          usageCount := l.usageCount + usageAmount
          isActive := if 0 < l.usageLimit ∧ l.usageLimit ≤ l.usageCount + usageAmount
            then false else l.isActive }) := by
  simp [recordUsage, hl, hadm, hact, Nat.not_le.mpr hexp, Nat.not_lt.mpr hov]

/-- Starting `k > 0` usages below a limit of 5, `k` single-usage
`recordUsage` calls all succeed and leave the license stored with count 5
and `isActive = false`. -/
theorem iterRecord_reaches_limit (sender licenseId now : Nat) :
    ∀ (k : Nat) (s : LMState) (l : License),
      0 < k →
      s.admins sender = true → s.licenses licenseId = some l →
      l.isActive = true → now < l.expiresAt → l.usageLimit = 5 →
      l.usageCount + k = 5 →
      ∃ s', iterRecord sender licenseId now k s = some s' ∧
        s'.admins sender = true ∧
        s'.licenses licenseId = some { l with usageCount := 5, isActive := false } := by
  intro k
  induction k with
  | zero =>
    intro s l hk _ _ _ _ _ _
    exact absurd hk (Nat.lt_irrefl 0)
  | succ k ih =>
    intro s l _ hadm hl hact hexp hlim hcnt
    have hov : l.usageCount + 1 ≤ UMAX := by
      have h5 : (5 : Nat) ≤ UMAX := by norm_num [UMAX]
      omega
    have hcall := recordUsage_ok s sender licenseId 1 now l hadm hl hact hexp hov
    rcases Nat.eq_zero_or_pos k with hk0 | hkpos
    · subst hk0
      have hc4 : l.usageCount = 4 := by omega
      have hcond : 0 < l.usageLimit ∧ l.usageLimit ≤ l.usageCount + 1 := by
        rw [hlim]; omega
      refine ⟨s.setLicense licenseId
        { l with
          usageCount := l.usageCount + 1
          isActive := if 0 < l.usageLimit ∧ l.usageLimit ≤ l.usageCount + 1
            then false else l.isActive }, ?_, hadm, ?_⟩
      · simp only [iterRecord, hcall]
      · simp only [LMState.setLicense]
        rw [if_pos trivial, if_pos hcond, hc4]
    · have hcond : ¬ (0 < l.usageLimit ∧ l.usageLimit ≤ l.usageCount + 1) := by
        rw [hlim]; omega
      have hrec : ({ l with
          usageCount := l.usageCount + 1
          isActive := if 0 < l.usageLimit ∧ l.usageLimit ≤ l.usageCount + 1
            then false else l.isActive } : License)
          = { l with usageCount := l.usageCount + 1 } := by
        rw [if_neg hcond]
      rw [hrec] at hcall
      have hlk : (s.setLicense licenseId { l with usageCount := l.usageCount + 1 }).licenses
          licenseId = some { l with usageCount := l.usageCount + 1 } := by
        simp only [LMState.setLicense]
        rw [if_pos trivial]
      obtain ⟨s', hs', hadm', hls'⟩ :=
        ih (s.setLicense licenseId { l with usageCount := l.usageCount + 1 })
          { l with usageCount := l.usageCount + 1 } hkpos hadm hlk hact hexp hlim
          (by simp only; omega)
      refine ⟨s', ?_, hadm', hls'⟩
      simp only [iterRecord, hcall]
      exact hs'

/-- **C2.** On a fresh license with `usageLimit = 5` (count 0, active,
unexpired), five single-usage `recordUsage` calls by an admin all succeed,
leaving the stored license with `usageCount = 5` and `isActive = false`,
and a sixth call fails with `NotActive`; and in general, whenever a
successful `recordUsage` leaves a stored license with a positive
`usageLimit` and `usageCount` at or past it, that same call has forced
`isActive = false`. -/
theorem recordUsage_five_then_notActive (s : LMState) (sender licenseId now : Nat)
    (l : License)
    (hadm : s.admins sender = true) (hl : s.licenses licenseId = some l)
    (hact : l.isActive = true) (hlim : l.usageLimit = 5) (hcnt : l.usageCount = 0)
    (hexp : now < l.expiresAt) :
    ((iterRecord sender licenseId now 5 s).bind (LMState.licenseAt licenseId) =
        some { l with usageCount := 5, isActive := false } ∧
      (iterRecord sender licenseId now 5 s).map (recordResult sender licenseId 1 now) =
        some (.error .NotActive)) ∧
    (∀ (t : LMState) (sd id amt nw : Nat) (r : License),
      (recordUsage t sd id amt nw).1 = .ok () →
      (recordUsage t sd id amt nw).2.licenses id = some r →
      0 < r.usageLimit → r.usageLimit ≤ r.usageCount → r.isActive = false) := by
  constructor
  · obtain ⟨s5, hs5, hadm5, hls5⟩ :=
      iterRecord_reaches_limit sender licenseId now 5 s l (by omega) hadm hl hact
        hexp hlim (by omega)
    rw [hs5]
    constructor
    · exact hls5
    · have h6 : recordResult sender licenseId 1 now s5 = .error .NotActive := by
        simp [recordResult, recordUsage, hadm5, hls5]
      exact congrArg some h6
  · intro t sd id amt nw r hok hr hpos hge
    by_cases ha : t.admins sd = false
    · simp [recordUsage, ha] at hok
    · cases hlk : t.licenses id with
      | none => simp [recordUsage, ha, hlk] at hok
      | some l0 =>
        by_cases h1 : l0.isActive = false
        · simp [recordUsage, ha, hlk, h1] at hok
        · by_cases h2 : l0.expiresAt ≤ nw
          · simp [recordUsage, ha, hlk, h1, h2] at hok
          · by_cases h3 : UMAX < l0.usageCount + amt
            · simp [recordUsage, ha, hlk, h1, h2, h3] at hok
            · have hstored : (recordUsage t sd id amt nw).2.licenses id
                  = some { l0 with
                      usageCount := l0.usageCount + amt
                      isActive := if 0 < l0.usageLimit ∧ l0.usageLimit ≤ l0.usageCount + amt
                        then false else l0.isActive } := by
                simp [recordUsage, ha, hlk, h1, h2, h3, LMState.setLicense]
              rw [hstored] at hr
              injection hr with hr
              subst hr
              have hp : 0 < l0.usageLimit := hpos
              have hg : l0.usageLimit ≤ l0.usageCount + amt := hge
              show (if 0 < l0.usageLimit ∧ l0.usageLimit ≤ l0.usageCount + amt
                then false else l0.isActive) = false
              rw [if_pos ⟨hp, hg⟩]

/-- Witness for C2: at `wState` (admin 9, license 1 fresh with limit 5,
`now = 10` before expiry 1000) the five calls succeed, the stored license
ends inactive at count 5, and the sixth call reports `NotActive`. -/
theorem recordUsage_five_then_notActive_witness :
    wState.admins 9 = true ∧ wState.licenses 1 = some wLicense ∧
      wLicense.isActive = true ∧ wLicense.usageLimit = 5 ∧
      wLicense.usageCount = 0 ∧ 10 < wLicense.expiresAt ∧
      (iterRecord 9 1 10 5 wState).bind (LMState.licenseAt 1) =
        some { wLicense with usageCount := 5, isActive := false } ∧
      (iterRecord 9 1 10 5 wState).map (recordResult 9 1 1 10) =
        some (.error .NotActive) :=
  ⟨rfl, rfl, rfl, rfl, rfl, by decide,
    (recordUsage_five_then_notActive wState 9 1 10 wLicense rfl rfl rfl rfl rfl
      (by decide)).1.1,
    (recordUsage_five_then_notActive wState 9 1 10 wLicense rfl rfl rfl rfl rfl
      (by decide)).1.2⟩
